import Mathlib

/-!
# Verification of the INFUEXT pharma export analyzer (`src/app.py`)

Shallow embedding of the pandas/streamlit pipeline in `app.py`:
numeric normalization (lines 15-22), the API extraction heuristic
(`is_invalid` lines 25-27, `extract_api` lines 29-44), the human-use
filter (lines 46-57) and the top-5 aggregation report (lines 60-93).

Strings are modelled as Lean `String`/`List Char`; the Python
character classes (`str.upper`, `str.strip`, `\s`, `\d`, `\w`) are
modelled over the ASCII/Latin-1 range, which covers all data the
claims are about.  Numeric cells are modelled as `Option ℚ`: the
result of `pd.to_numeric(·, errors := coerce)` is either a parsed
rational or NaN (`none`); `.fillna 0` is `Option.getD · 0`.
-/

set_option maxRecDepth 20000

namespace Infuext

/-! ## Python character model -/

/-- Whitespace characters of Python `str.strip` / regex `\s`
(ASCII/Latin-1 range). -/
def pyIsSpace (c : Char) : Bool :=
  c = ' ' || c = '\t' || c = '\n' || c = '\x0b' || c = '\x0c' || c = '\r' ||
  c = '\x1c' || c = '\x1d' || c = '\x1e' || c = '\x1f' || c = '\x85' || c = '\xa0'

/-- Python `str.upper` on one character (basic latin letters). -/
def pyUpperChar (c : Char) : Char :=
  if 97 ≤ c.toNat ∧ c.toNat ≤ 122 then Char.ofNat (c.toNat - 32) else c

/-- Python `str.upper`. -/
def pyUpper (l : List Char) : List Char := l.map pyUpperChar

/-- Python `str.strip()`: drop leading and trailing whitespace. -/
def pyStrip (l : List Char) : List Char :=
  ((l.dropWhile pyIsSpace).reverse.dropWhile pyIsSpace).reverse

/-- The delimiter class of `re.split(r"[-+/(),.% ]", name)` in `extract_api`. -/
def splitDelims : List Char := ['-', '+', '/', '(', ')', ',', '.', '%', ' ']

/-- `re.split` on single characters of `splitDelims`: empty tokens between
adjacent delimiters and at the ends are kept, exactly as `re.split` does. -/
def reSplitAux : List Char → List Char → List (List Char)
  | [], acc => [acc.reverse]
  | c :: cs, acc =>
    if c ∈ splitDelims then acc.reverse :: reSplitAux cs [] else reSplitAux cs (c :: acc)

def reSplit (l : List Char) : List (List Char) := reSplitAux l []

/-! ## `is_invalid` and `extract_api` (app.py lines 25-44) -/

/-- The five dosage-unit suffixes of the pattern in `is_invalid`. -/
def dosageSuffixes : List (List Char) :=
  [['M', 'G'], ['M', 'L'], ['G', 'M'], ['G'], ['K', 'G']]

/-- `re.match(r"^\d+\s?(MG|ML|GM|G|KG)$", token, re.IGNORECASE)`:
one or more digits, at most one whitespace character, then one of the
five unit suffixes, spanning the whole token.  The greedy `\d+` is
equivalent to the maximal digit prefix because no suffix (and no
whitespace) starts with a digit.  `re.IGNORECASE` is modelled by
upper-casing the token first. -/
def dosageMatch (tok : List Char) : Bool :=
  let u := pyUpper tok
  let ds := u.takeWhile Char.isDigit
  let rest := u.drop ds.length
  !ds.isEmpty &&
    (decide (rest ∈ dosageSuffixes) ||
      (match rest with
       | c :: cs => pyIsSpace c && decide (cs ∈ dosageSuffixes)
       | [] => false))

/-- `is_invalid` (app.py lines 25-27). -/
def is_invalid (tok : List Char) : Bool :=
  dosageMatch tok || tok.length < 4

/-- The fixed exclusion vocabulary of `extract_api` (app.py lines 31-35). -/
def excludeTerms : List (List Char) :=
  (["PHARMACEUTICAL", "LIMITED", "PRIVATE", "HARMLESS", "EXPORT",
    "LAB", "LABS", "INDIA", "TABLET", "CAPSULE", "INJECTION",
    "SYRUP", "CREAM", "OINTMENT", "DROPS", "NOS", "KGS", "KG"]).map String.toList

/-- The token filter of `extract_api` (app.py lines 38-42), applied to the
already-stripped token: non-empty, not in the vocabulary, not `is_invalid`. -/
def keepToken (t : List Char) : Bool :=
  !t.isEmpty && decide (t ∉ excludeTerms) && !is_invalid t

/-- `extract_api` (app.py lines 29-44) on a character list. -/
def extractApiL (name : List Char) : List Char :=
  (((reSplit (pyUpper name)).map pyStrip).filter keepToken).headD
    ('I' :: 'N' :: 'V' :: 'A' :: 'L' :: 'I' :: 'D' :: [])

/-- `extract_api` (app.py lines 29-44). -/
def extract_api (name : String) : String := (extractApiL name.toList).asString

example : extract_api "PARACETAMOL 500MG TABLET" = "PARACETAMOL" := by decide
example : extract_api "ABC" = "INVALID" := by decide
example : extract_api "Amoxicillin-250mg Capsule (India)" = "AMOXICILLIN" := by decide
example : extract_api "12\tMG" = "INVALID" := by decide
example : extract_api "INVALID SYRUP" = "INVALID" := by decide

/-! ## The specification's reading of `extract_api` (for claim C1)

The spec describes the dosage pattern as "one-or-more digits, optional
single space, then one of {MG, ML, GM, G, KG}".  `dosageClaim` takes
"space" literally (the character `' '`); `dosageWs` is the amended
reading (one optional whitespace character, as `\s?` actually matches). -/

/-- Dosage pattern as literally worded by the spec: digits, then an
optional single space character, then a unit suffix. -/
def dosageClaim (tok : List Char) : Bool :=
  let u := pyUpper tok
  let ds := u.takeWhile Char.isDigit
  let rest := u.drop ds.length
  !ds.isEmpty &&
    (decide (rest ∈ dosageSuffixes) ||
      (rest.head? = some ' ' && decide (rest.tail ∈ dosageSuffixes)))

/-- Dosage pattern with the amendment: the optional character between the
digits and the unit suffix may be any (single) whitespace character. -/
def dosageWs (tok : List Char) : Bool :=
  let u := pyUpper tok
  let ds := u.takeWhile Char.isDigit
  let rest := u.drop ds.length
  !ds.isEmpty &&
    (decide (rest ∈ dosageSuffixes) ||
      (rest.head?.any pyIsSpace && decide (rest.tail ∈ dosageSuffixes)))

/-- A token is discarded, per the claim's wording, when it is empty after
trimming, in the exclusion vocabulary, a dosage token, or shorter than
4 characters.  Parametrized by the dosage reading. -/
def discardClaim (dosage : List Char → Bool) (t : List Char) : Bool :=
  t.isEmpty || decide (t ∈ excludeTerms) || dosage t || t.length < 4

/-- `extract_api` as described by claim C1, parametrized by the dosage
reading: upper-case, split on the nine delimiters, trim, discard per
`discardClaim`, return the first survivor or the sentinel. -/
def extractApiClaim (dosage : List Char → Bool) (name : String) : String :=
  ((((reSplit (pyUpper name.toList)).map pyStrip).filter
      (fun t => !discardClaim dosage t)).headD
    ('I' :: 'N' :: 'V' :: 'A' :: 'L' :: 'I' :: 'D' :: [])).asString

/-! ## Aggregation primitives (app.py lines 46-93) -/

/-- Python `str.split()` with no argument: split on whitespace runs,
discarding empty tokens.  Used by `.str.split().str[0]` (line 81). -/
def splitWsAux : List Char → List Char → List (List Char)
  | [], acc => if acc.isEmpty then [] else [acc.reverse]
  | c :: cs, acc =>
    if pyIsSpace c then
      (if acc.isEmpty then splitWsAux cs [] else acc.reverse :: splitWsAux cs [])
    else splitWsAux cs (c :: acc)

def splitWs (l : List Char) : List (List Char) := splitWsAux l []

/-- Word characters of regex `\w` / boundary `\b` (ASCII range). -/
def isWordChar (c : Char) : Bool := c.isAlphanum || c = '_'

/-- Scan for a whole-word occurrence of `needle` in `hay`:
`needle` occurs at some position with a `\b` boundary on both sides.
`prev` is the character just before the current position. -/
def wholeWordAux (needle : List Char) : Option Char → List Char → Bool
  | prev, hay =>
    (prev.all (fun c => !isWordChar c) && needle.isPrefixOf hay &&
      (hay.drop needle.length).head?.all (fun c => !isWordChar c)) ||
    (match hay with
     | [] => false
     | c :: cs => wholeWordAux needle (some c) cs)

def containsWholeWord (hay needle : List Char) : Bool := wholeWordAux needle none hay

/-- The human-use indicator keywords (app.py line 50). -/
def humanKeywords : List (List Char) :=
  (["TABLET", "CAPSULE", "INJECTION", "SYRUP", "CREAM", "OINTMENT", "DROPS"]).map
    String.toList

/-- `Series.str.contains(human_indicators, case := False)` on one cell
(line 51): case-insensitivity is modelled by upper-casing the haystack,
the keywords being upper-case words. -/
def humanMatch (s : String) : Bool :=
  humanKeywords.any (fun k => containsWholeWord (pyUpper s.toList) k)

example : humanMatch "Paracetamol 500mg tablet" = true := by decide
example : humanMatch "XYZ POWDER" = false := by decide
example : humanMatch "TABLETS XYZ" = false := by decide

/-- Distinct values in order of first appearance (`Series.unique`);
`seen` accumulates the values already emitted. -/
def firstDedupAux : List String → List String → List String
  | [], _ => []
  | x :: xs, seen =>
    if x ∈ seen then firstDedupAux xs seen else x :: firstDedupAux xs (x :: seen)

def firstDedup (l : List String) : List String := firstDedupAux l []

/-- Lexicographic comparison of character lists by code point, the
order Python string comparison and pandas sorting use. -/
def lexLe : List Char → List Char → Bool
  | [], _ => true
  | _ :: _, [] => false
  | a :: as, b :: bs => a.toNat < b.toNat || (a = b && lexLe as bs)

def strLe (a b : String) : Bool := lexLe a.toList b.toList

/-- Insert into an ascending-sorted list (stable). -/
def insertAsc (a : String) : List String → List String
  | [] => [a]
  | b :: bs => if strLe a b then a :: b :: bs else b :: insertAsc a bs

/-- Ascending sort (insertion sort); models the sorted outputs of
`groupby` keys and `Series.mode`. -/
def sortAsc : List String → List String
  | [] => []
  | x :: xs => insertAsc x (sortAsc xs)

/-- Insert into a list sorted descending by `key` (stable: an element is
placed before the first element with a not-greater key, so earlier
elements come first among ties). -/
def insertDescBy (key : String → ℚ) (a : String) : List String → List String
  | [] => [a]
  | b :: bs => if key b ≤ key a then a :: b :: bs else b :: insertDescBy key a bs

/-- Stable descending sort by `key`; models `nlargest` (keep first) and
`value_counts` ordering. -/
def sortDescBy (key : String → ℚ) : List String → List String
  | [] => []
  | x :: xs => insertDescBy key x (sortDescBy key xs)

/-- The values attaining the maximal multiplicity in `l`
(the set underlying `Series.mode`), in order of first appearance. -/
def modeCandidates (l : List String) : List String :=
  let uniq := firstDedup l
  let mx := (uniq.map (fun v => l.count v)).foldr max 0
  uniq.filter (fun v => l.count v = mx)

/-- `Series.mode`: the most frequent values, sorted ascending. -/
def modesOf (l : List String) : List String := sortAsc (modeCandidates l)

/-- `Series.mode()[0]` (app.py line 81): the first of the sorted modes;
`none` models the `IndexError` on an empty mode list. -/
def modeHead (l : List String) : Option String := (modesOf l).head?

/-- The claim's tie rule for C7: the first-occurring value among the
most frequent ones. -/
def firstOccurringMode (l : List String) : Option String :=
  let mx := ((firstDedup l).map (fun v => l.count v)).foldr max 0
  l.find? (fun v => l.count v = mx)

/-- The smaller of two strings in code-point order. -/
def strMin (a b : String) : String := if strLe a b then a else b

/-- The least string of a list in code-point order (the amended tie rule
of claim C7: the lexicographically smallest mode). -/
def lexMin? : List String → Option String
  | [] => none
  | a :: l =>
    match lexMin? l with
    | none => some a
    | some b => some (strMin a b)

/-- `Series.value_counts().index.tolist()` (app.py line 76): distinct
values sorted by descending frequency. -/
def valueCounts (l : List String) : List String :=
  sortDescBy (fun v => (l.count v : ℚ)) (firstDedup l)

example : modesOf ["ZZZ", "APPLE"] = ["APPLE", "ZZZ"] := by decide
example : firstOccurringMode ["ZZZ", "APPLE"] = some "ZZZ" := by decide

/-! ### Strength extraction (app.py line 73) -/

/-- Try to match `\d+\s?MG|\d+\s?ML` at the start of `l`; returns the
matched text and its length. -/
def strengthMatchAt (l : List Char) : Option (List Char × Nat) :=
  let ds := l.takeWhile Char.isDigit
  if ds.isEmpty then none
  else
    match l.drop ds.length with
    | 'M' :: 'G' :: _ => some (ds ++ ['M', 'G'], ds.length + 2)
    | 'M' :: 'L' :: _ => some (ds ++ ['M', 'L'], ds.length + 2)
    | c :: 'M' :: 'G' :: _ =>
      if pyIsSpace c then some (ds ++ [c, 'M', 'G'], ds.length + 3) else none
    | c :: 'M' :: 'L' :: _ =>
      if pyIsSpace c then some (ds ++ [c, 'M', 'L'], ds.length + 3) else none
    | _ => none

/-- `re.findall`-style scan for `\d+\s?MG|\d+\s?ML` (non-overlapping,
left to right).  Each step consumes at least one character, so a fuel
equal to the input length never runs out. -/
def findStrengthsAux : Nat → List Char → List (List Char)
  | 0, _ => []
  | _ + 1, [] => []
  | fuel + 1, l@(_ :: tl) =>
    match strengthMatchAt l with
    | some (m, len) => m :: findStrengthsAux fuel (l.drop (max len 1))
    | none => findStrengthsAux fuel tl

def findStrengths (l : List Char) : List (List Char) := findStrengthsAux l.length l

example : (findStrengths ("PARA 500MG X250ML 5 ML".toList)).map List.asString
    = ["500MG", "250ML", "5 ML"] := by decide

/-! ## Data model

A pandas `DataFrame` is column-oriented: a whole column may be absent.
`RawTable` keeps one presence flag per relevant column and a list of
rows; a cell of an absent column is never read.  A text cell is
`Option String` (`none` is NaN); a raw numeric cell is `Option ℚ`, the
result of attempting `pd.to_numeric(·, errors := coerce)` on it
(`none` is NaN/unparseable). -/

structure RawRow where
  productName : Option String
  unit : Option String
  quantity : Option ℚ
  fobInr : Option ℚ
  itemRate : Option ℚ
  fobUsd : Option ℚ
deriving DecidableEq

structure RawTable where
  rows : List RawRow
  hasProductName : Bool
  hasUnit : Bool
  hasQuantity : Bool
  hasFobInr : Bool
  hasItemRate : Bool
  hasFobUsd : Bool
deriving DecidableEq

/-- A row after the numeric cleanup: the numeric cells of present
columns are coerced rationals, and `FOB (USD)` always exists (line 22
creates it when needed).  A numeric field of a column whose presence
flag is `false` carries the dummy 0 and is never read: the pipeline
checks the flag first and raises `KeyError` as the source would. -/
structure NormRow where
  productName : Option String
  unit : Option String
  quantity : ℚ
  fobInr : ℚ
  itemRate : ℚ
  fobUsd : ℚ
deriving DecidableEq

structure NormTable where
  rows : List NormRow
  hasProductName : Bool
  hasUnit : Bool
  hasQuantity : Bool
  hasFobInr : Bool
  hasItemRate : Bool
deriving DecidableEq

instance {ε α : Type} [DecidableEq ε] [DecidableEq α] : DecidableEq (Except ε α) := by
  intro a b
  cases a <;> cases b
  case error.error e f => exact decidable_of_iff (e = f) (by simp)
  case ok.ok x y => exact decidable_of_iff (x = y) (by simp)
  all_goals exact isFalse (by intro h; cases h)

/-! ## Normalizer (app.py lines 14-22) -/

/-- The hardcoded INR→USD conversion rate of line 22. -/
def FIXED_RATE : ℚ := 12 / 1000

/-- `pd.to_numeric(·, errors := coerce).fillna(0)` on one cell. -/
def coerceCell (c : Option ℚ) : ℚ := c.getD 0

/-- `df["FOB (USD)"].sum()` after the coercion loop. -/
def usdColSum (t : RawTable) : ℚ := (t.rows.map (fun r => coerceCell r.fobUsd)).sum

/-- Lines 14-22: coerce each present numeric column (absent columns are
skipped, not created); then, if `FOB (USD)` is absent or its coerced sum
is 0, overwrite it with `FOB (INR) * 0.012` — which raises a `KeyError`
when `FOB (INR)` is itself absent. -/
def normalize (t : RawTable) : Except String NormTable :=
  let base := t.rows.map (fun r =>
    { productName := r.productName, unit := r.unit,
      quantity := coerceCell r.quantity, fobInr := coerceCell r.fobInr,
      itemRate := coerceCell r.itemRate, fobUsd := coerceCell r.fobUsd : NormRow })
  if t.hasFobUsd = false ∨ usdColSum t = 0 then
    if t.hasFobInr then
      .ok { rows := base.map (fun r => { r with fobUsd := r.fobInr * FIXED_RATE }),
            hasProductName := t.hasProductName, hasUnit := t.hasUnit,
            hasQuantity := t.hasQuantity, hasFobInr := t.hasFobInr,
            hasItemRate := t.hasItemRate }
    else .error "KeyError: FOB (INR)"
  else
    .ok { rows := base,
          hasProductName := t.hasProductName, hasUnit := t.hasUnit,
          hasQuantity := t.hasQuantity, hasFobInr := t.hasFobInr,
          hasItemRate := t.hasItemRate }

/-! ## Filtering (app.py lines 46-57) -/

/-- `extract_api` applied to a `Product Name` cell (line 46):
`str(nan)` is `"nan"`, whose only token has length 3, so a missing
name yields the sentinel. -/
def apiOf (pn : Option String) : String := extract_api (pn.getD "nan")

/-- `valid_df` (line 47): rows whose API is not the sentinel. -/
def validRows (nt : NormTable) : List NormRow :=
  nt.rows.filter (fun r => apiOf r.productName ≠ "INVALID")

/-- `human_df` (lines 50-51): rows whose product name contains a
whole-word human-use keyword, case-insensitively; NaN names do not
match (`na := False`). -/
def humanRows (nt : NormTable) : List NormRow :=
  (validRows nt).filter (fun r =>
    match r.productName with
    | some s => humanMatch s
    | none => false)

/-- `filtered_df` (line 57): `none` is the "All" choice. -/
def filteredRows (nt : NormTable) (f : Option String) : List NormRow :=
  match f with
  | none => humanRows nt
  | some a => (humanRows nt).filter (fun r => apiOf r.productName = a)

/-! ## Aggregation (app.py lines 60-93) -/

/-- The rows of one API group within the filtered set. -/
def groupRows (nt : NormTable) (f : Option String) (a : String) : List NormRow :=
  (filteredRows nt f).filter (fun r => apiOf r.productName = a)

/-- `Total_Quantity` of one group (line 62). -/
def groupQtySum (nt : NormTable) (f : Option String) (a : String) : ℚ :=
  ((groupRows nt f a).map (fun r => r.quantity)).sum

/-- Sum of `FOB (USD)` over one group. -/
def groupFobSum (nt : NormTable) (f : Option String) (a : String) : ℚ :=
  ((groupRows nt f a).map (fun r => r.fobUsd)).sum

/-- The distinct group keys of `groupby("API")`, sorted ascending as
pandas returns them. -/
def apiKeysSorted (nt : NormTable) (f : Option String) : List String :=
  sortAsc (firstDedup ((filteredRows nt f).map (fun r => apiOf r.productName)))

/-- The number of distinct API tokens in the filtered set. -/
def distinctApiCount (nt : NormTable) (f : Option String) : Nat :=
  (firstDedup ((filteredRows nt f).map (fun r => apiOf r.productName))).length

/-- `nlargest(5, Total_Quantity).index.tolist()` (line 64): a stable
descending sort of the group keys by total quantity, keeping the first
five. -/
def topApis (nt : NormTable) (f : Option String) : List String :=
  (sortDescBy (groupQtySum nt f) (apiKeysSorted nt f)).take 5

/-- One row of `analysis_data` (lines 79-91). -/
structure AnalysisRecord where
  api : String
  category : String
  exportCount : Nat
  totalShipments : ℚ
  commonStrengths : String
  avgQtyExport : ℚ
  packagingTypes : String
  totalNos : ℚ
  totalKg : ℚ
  avgFobPack : ℚ
  avgPriceUnit : ℚ
deriving DecidableEq

/-- `Product Name` upper-cased, for `Unit` comparisons. -/
def upperStr (s : String) : String := (pyUpper s.toList).asString

/-- The first whitespace-delimited words of the group's product names
(`.str.split().str[0]`, line 81); NaN names and empty splits drop out
(they become NaN, which `mode` ignores). -/
def firstWordsOf (rows : List NormRow) : List String :=
  rows.filterMap (fun r =>
    r.productName.bind (fun s => (splitWs s.toList).head?.map List.asString))

/-- `Common Strengths` source data (line 73): all `\d+\s?MG|\d+\s?ML`
matches across the group's product names, first-appearance distinct,
first three. -/
def strengthsOf (rows : List NormRow) : List String :=
  (firstDedup (((rows.filterMap (fun r => r.productName)).map
    (fun s => findStrengths s.toList)).flatten.map List.asString)).take 3

/-- One record of the analysis loop (lines 69-91).  `Unit` is read at
line 76, before the `Category` mode at line 81, so a missing `Unit`
column raises first; `mode()[0]` on an empty mode list raises
`IndexError`. -/
def mkRecord (hasUnit : Bool) (a : String) (rows : List NormRow) :
    Except String AnalysisRecord :=
  let strengths := strengthsOf rows
  if hasUnit = false then .error "KeyError: Unit"
  else
    let packaging := (valueCounts (rows.filterMap (fun r => r.unit))).take 3
    match modeHead (firstWordsOf rows) with
    | none => .error "IndexError: mode"
    | some category =>
      let qsum := (rows.map (fun r => r.quantity)).sum
      let fsum := (rows.map (fun r => r.fobUsd)).sum
      .ok {
        api := a
        category := category
        exportCount := rows.length
        totalShipments := qsum
        commonStrengths :=
          if strengths.isEmpty then "Standard" else String.intercalate ", " strengths
        avgQtyExport := qsum / max (rows.length : ℚ) 1
        packagingTypes :=
          if packaging.isEmpty then "Various" else String.intercalate ", " packaging
        totalNos :=
          ((rows.filter (fun r => r.unit.map upperStr = some "NOS")).map
            (fun r => r.quantity)).sum
        totalKg :=
          ((rows.filter (fun r =>
            r.unit.map upperStr = some "KG" ∨ r.unit.map upperStr = some "KGS")).map
            (fun r => r.quantity)).sum
        avgFobPack := fsum / max qsum 1
        avgPriceUnit := fsum / max qsum 1 }

/-- `List.mapM` for `Except`, written out for easy induction: stop at
the first error, as the analysis loop would. -/
def exceptMap (g : String → Except String AnalysisRecord) :
    List String → Except String (List AnalysisRecord)
  | [] => .ok []
  | a :: as =>
    match g a with
    | .error e => .error e
    | .ok rec =>
      match exceptMap g as with
      | .error e => .error e
      | .ok recs => .ok (rec :: recs)

/-- The whole pipeline on one uploaded table (lines 11-93): normalize,
extract the API column (line 46, `KeyError` if `Product Name` is
absent), filter, and — when the filtered set is non-empty — aggregate
the top-5 groups (line 61 reads `Quantity`: `KeyError` if absent).
An empty filtered set produces no records (the `else` warning branch). -/
def buildReport (t : RawTable) (f : Option String) :
    Except String (List AnalysisRecord) :=
  match normalize t with
  | .error e => .error e
  | .ok nt =>
    if nt.hasProductName = false then .error "KeyError: Product Name"
    else if (filteredRows nt f).isEmpty then .ok []
    else if nt.hasQuantity = false then .error "KeyError: Quantity"
    else exceptMap (fun a => mkRecord nt.hasUnit a (groupRows nt f a)) (topApis nt f)

/-! ## Character-level lemmas (towards idempotence of `extract_api`) -/

theorem toNat_ofNat_valid (n : Nat) (h : n.isValidChar) : (Char.ofNat n).toNat = n := by
  rw [Char.ofNat, dif_pos h]
  rfl

theorem pyUpperChar_idem (c : Char) : pyUpperChar (pyUpperChar c) = pyUpperChar c := by
  unfold pyUpperChar
  by_cases h : 97 ≤ c.toNat ∧ c.toNat ≤ 122
  · rw [if_pos h]
    have hv : (c.toNat - 32).isValidChar := Or.inl (by omega)
    have ht : (Char.ofNat (c.toNat - 32)).toNat = c.toNat - 32 := toNat_ofNat_valid _ hv
    rw [if_neg (by omega)]
  · rw [if_neg h, if_neg h]

theorem pyUpperChar_of_mem_pyUpper {c : Char} {l : List Char} (h : c ∈ pyUpper l) :
    pyUpperChar c = c := by
  unfold pyUpper at h
  obtain ⟨d, _, rfl⟩ := List.mem_map.mp h
  exact pyUpperChar_idem d

theorem pyUpper_fixed {l : List Char} (h : ∀ c ∈ l, pyUpperChar c = c) :
    pyUpper l = l := by
  unfold pyUpper
  rw [List.map_congr_left h]
  simp

/-- Every character of a `reSplitAux` token comes from the accumulator
or from the remaining input. -/
theorem mem_of_mem_reSplitAux :
    ∀ (l acc t : List Char), t ∈ reSplitAux l acc → ∀ c ∈ t, c ∈ acc ∨ c ∈ l := by
  intro l
  induction l with
  | nil =>
    intro acc t ht c hc
    simp only [reSplitAux, List.mem_singleton] at ht
    subst ht
    exact Or.inl (List.mem_reverse.mp hc)
  | cons d ds ih =>
    intro acc t ht c hc
    simp only [reSplitAux] at ht
    by_cases hd : d ∈ splitDelims
    · rw [if_pos hd] at ht
      rcases List.mem_cons.mp ht with h1 | h1
      · subst h1
        exact Or.inl (List.mem_reverse.mp hc)
      · rcases ih [] t h1 c hc with h2 | h2
        · exact absurd h2 (List.not_mem_nil c)
        · exact Or.inr (List.mem_cons_of_mem d h2)
    · rw [if_neg hd] at ht
      rcases ih (d :: acc) t ht c hc with h2 | h2
      · rcases List.mem_cons.mp h2 with h3 | h3
        · exact Or.inr (h3 ▸ List.mem_cons_self d ds)
        · exact Or.inl h3
      · exact Or.inr (List.mem_cons_of_mem d h2)

/-- Tokens produced by `reSplitAux` contain no delimiter (provided the
accumulator does not). -/
theorem no_delim_of_mem_reSplitAux :
    ∀ (l acc t : List Char), (∀ c ∈ acc, c ∉ splitDelims) →
      t ∈ reSplitAux l acc → ∀ c ∈ t, c ∉ splitDelims := by
  intro l
  induction l with
  | nil =>
    intro acc t hacc ht c hc
    simp only [reSplitAux, List.mem_singleton] at ht
    subst ht
    exact hacc c (List.mem_reverse.mp hc)
  | cons d ds ih =>
    intro acc t hacc ht c hc
    simp only [reSplitAux] at ht
    by_cases hd : d ∈ splitDelims
    · rw [if_pos hd] at ht
      rcases List.mem_cons.mp ht with h1 | h1
      · subst h1
        exact hacc c (List.mem_reverse.mp hc)
      · exact ih [] t (by intro x hx; exact absurd hx (List.not_mem_nil x)) h1 c hc
    · rw [if_neg hd] at ht
      refine ih (d :: acc) t ?_ ht c hc
      intro x hx
      rcases List.mem_cons.mp hx with h3 | h3
      · exact h3 ▸ hd
      · exact hacc x h3

/-- Splitting a delimiter-free string returns it whole. -/
theorem reSplitAux_of_no_delim :
    ∀ (l acc : List Char), (∀ c ∈ l, c ∉ splitDelims) →
      reSplitAux l acc = [acc.reverse ++ l] := by
  intro l
  induction l with
  | nil => intro acc _; simp [reSplitAux]
  | cons d ds ih =>
    intro acc h
    have hd : d ∉ splitDelims := h d (List.mem_cons_self d ds)
    simp only [reSplitAux, if_neg hd]
    rw [ih (d :: acc) (fun c hc => h c (List.mem_cons_of_mem d hc))]
    simp

theorem mem_of_mem_pyStrip {c : Char} {l : List Char} (h : c ∈ pyStrip l) : c ∈ l := by
  unfold pyStrip at h
  have h1 := List.mem_reverse.mp h
  have h2 := List.dropWhile_subset pyIsSpace h1
  exact List.dropWhile_subset pyIsSpace (List.mem_reverse.mp h2)

theorem dropWhile_eq_self_of_head {p : α → Bool} {l : List α}
    (h : ∀ a, l.head? = some a → p a = false) : l.dropWhile p = l := by
  cases l with
  | nil => rfl
  | cons a as => exact List.dropWhile_cons_of_neg (by simp [h a rfl])

theorem head_dropWhile_false {p : α → Bool} {l : List α} {a : α}
    (h : (l.dropWhile p).head? = some a) : p a = false := by
  have := List.head?_dropWhile_not p l
  rw [h] at this
  exact this

/-- `getLast?` is untouched by `dropWhile`, unless everything is dropped. -/
theorem getLast?_dropWhile (p : α → Bool) (l : List α) :
    l.dropWhile p = [] ∨ (l.dropWhile p).getLast? = l.getLast? := by
  obtain ⟨s, hs⟩ := List.dropWhile_suffix p (l := l)
  cases hd : l.dropWhile p with
  | nil => exact Or.inl rfl
  | cons b bs =>
    right
    rw [← hs, hd, List.getLast?_append]
    simp [List.getLast?_cons]

/-- Python `strip` is idempotent. -/
theorem pyStrip_idem (l : List Char) : pyStrip (pyStrip l) = pyStrip l := by
  unfold pyStrip
  set A := l.dropWhile pyIsSpace with hA
  set B := A.reverse.dropWhile pyIsSpace with hB
  by_cases hBe : B = []
  · simp [hBe]
  · have hSd : B.reverse.dropWhile pyIsSpace = B.reverse := by
      refine dropWhile_eq_self_of_head ?_
      intro a ha
      rw [List.head?_reverse] at ha
      rcases getLast?_dropWhile pyIsSpace A.reverse with h | h
      · exact absurd (hB.trans h) hBe
      · rw [← hB] at h
        rw [h, List.getLast?_reverse] at ha
        exact head_dropWhile_false (hA ▸ ha)
    rw [hSd, List.reverse_reverse]
    have hBd : B.dropWhile pyIsSpace = B := by
      refine dropWhile_eq_self_of_head ?_
      intro a ha
      exact head_dropWhile_false (hB ▸ ha)
    rw [hBd]

/-- A token that is delimiter-free, upper-case-fixed, strip-fixed and
kept by the filter is a fixed point of `extractApiL`. -/
theorem extractApiL_of_clean (t : List Char)
    (hkeep : keepToken t = true)
    (hnd : ∀ c ∈ t, c ∉ splitDelims)
    (hup : ∀ c ∈ t, pyUpperChar c = c)
    (hstrip : pyStrip t = t) :
    extractApiL t = t := by
  unfold extractApiL reSplit
  rw [pyUpper_fixed hup, reSplitAux_of_no_delim t [] hnd]
  simp [hstrip, hkeep]

theorem extractApiL_idem (name : List Char) :
    extractApiL (extractApiL name) = extractApiL name := by
  cases hv : ((reSplit (pyUpper name)).map pyStrip).filter keepToken with
  | nil =>
    have hres : extractApiL name = 'I' :: 'N' :: 'V' :: 'A' :: 'L' :: 'I' :: 'D' :: [] := by
      unfold extractApiL
      rw [hv]
      rfl
    rw [hres]
    decide
  | cons t rest =>
    have hres : extractApiL name = t := by
      unfold extractApiL
      rw [hv]
      rfl
    have hmem : t ∈ ((reSplit (pyUpper name)).map pyStrip).filter keepToken := by
      rw [hv]
      exact List.mem_cons_self t rest
    have hkeep : keepToken t = true := List.of_mem_filter hmem
    have hmem2 : t ∈ (reSplit (pyUpper name)).map pyStrip := List.mem_of_mem_filter hmem
    obtain ⟨t0, ht0, rfl⟩ := List.mem_map.mp hmem2
    have hnd : ∀ c ∈ pyStrip t0, c ∉ splitDelims := by
      intro c hc
      exact no_delim_of_mem_reSplitAux (pyUpper name) [] t0
        (fun x hx => absurd hx (List.not_mem_nil x)) ht0 c (mem_of_mem_pyStrip hc)
    have hup : ∀ c ∈ pyStrip t0, pyUpperChar c = c := by
      intro c hc
      rcases mem_of_mem_reSplitAux (pyUpper name) [] t0 ht0 c (mem_of_mem_pyStrip hc)
        with h | h
      · exact absurd h (List.not_mem_nil c)
      · exact pyUpperChar_of_mem_pyUpper h
    rw [hres]
    exact extractApiL_of_clean _ hkeep hnd hup (pyStrip_idem t0)

theorem extract_api_idem (name : String) :
    extract_api (extract_api name) = extract_api name := by
  unfold extract_api
  rw [show ((extractApiL name.toList).asString).toList = extractApiL name.toList from rfl]
  rw [extractApiL_idem]

/-! ## Claim C1 -/

theorem dosageWs_eq_dosageMatch (t : List Char) : dosageWs t = dosageMatch t := by
  unfold dosageWs dosageMatch
  cases h : (pyUpper t).drop ((pyUpper t).takeWhile Char.isDigit).length with
  | nil => simp [h]
  | cons c cs => simp [h]

/-- Surviving per the amended claim wording is exactly being kept by the
source's token filter. -/
theorem keep_eq_claim (t : List Char) : (!discardClaim dosageWs t) = keepToken t := by
  unfold discardClaim keepToken is_invalid
  rw [dosageWs_eq_dosageMatch]
  cases h1 : t.isEmpty <;> cases h2 : decide (t ∈ excludeTerms) <;>
    cases h3 : dosageMatch t <;> cases h4 : decide (t.length < 4) <;>
      simp [h1, h2, h3, h4, decide_not]

/-- C1, corrected.  The claim's description of `extract_api` is accurate
except for one word: the optional character the dosage pattern accepts
between the digits and the unit is any single whitespace character
(regex `\s?`), not only a space.  With that amendment the description
matches `extract_api` on every input, and the claim's two examples hold. -/
theorem c1_extract_api_amended :
    (∀ s : String, extractApiClaim dosageWs s = extract_api s) ∧
    extract_api "PARACETAMOL 500MG TABLET" = "PARACETAMOL" ∧
    extract_api "ABC" = "INVALID" := by
  refine ⟨?_, by decide, by decide⟩
  intro s
  unfold extractApiClaim extract_api extractApiL
  rw [List.filter_congr (fun t _ => keep_eq_claim t)]

/-- C1, counterexample to the claim as stated: on the token `12` TAB `MG`
the claim's dosage pattern (literal space only) does not fire, so the
claim predicts the token itself; `extract_api` classifies it as a dosage
token (`\s` matches TAB) and returns the sentinel. -/
theorem c1_counterexample :
    extract_api "12\tMG" = "INVALID" ∧
    extractApiClaim dosageClaim "12\tMG" = "12\tMG" ∧
    ("INVALID" : String) ≠ "12\tMG" :=
  ⟨by decide, by decide, by decide⟩

/-! ## Claim C2 -/

theorem length_insertAsc (a : String) (l : List String) :
    (insertAsc a l).length = l.length + 1 := by
  induction l with
  | nil => rfl
  | cons b bs ih =>
    unfold insertAsc
    by_cases h : strLe a b = true
    · rw [if_pos h]
      rfl
    · rw [if_neg h]
      simp [ih]

theorem length_sortAsc (l : List String) : (sortAsc l).length = l.length := by
  induction l with
  | nil => rfl
  | cons x xs ih =>
    unfold sortAsc
    rw [length_insertAsc, ih]
    rfl

theorem length_insertDescBy (key : String → ℚ) (a : String) (l : List String) :
    (insertDescBy key a l).length = l.length + 1 := by
  induction l with
  | nil => rfl
  | cons b bs ih =>
    unfold insertDescBy
    by_cases h : key b ≤ key a
    · rw [if_pos h]
      rfl
    · rw [if_neg h]
      simp [ih]

theorem length_sortDescBy (key : String → ℚ) (l : List String) :
    (sortDescBy key l).length = l.length := by
  induction l with
  | nil => rfl
  | cons x xs ih =>
    unfold sortDescBy
    rw [length_insertDescBy, ih]
    rfl

theorem exceptMap_ok_length (g : String → Except String AnalysisRecord)
    (l : List String) (ys : List AnalysisRecord)
    (h : exceptMap g l = .ok ys) : ys.length = l.length := by
  induction l generalizing ys with
  | nil =>
    unfold exceptMap at h
    cases h
    rfl
  | cons a as ih =>
    unfold exceptMap at h
    cases hg : g a with
    | error e => rw [hg] at h; cases h
    | ok rec =>
      rw [hg] at h
      cases hm : exceptMap g as with
      | error e => rw [hm] at h; cases h
      | ok recs =>
        rw [hm] at h
        cases h
        simp [ih recs hm]

/-- C2, confirmed: when the filtered set is non-empty and the pipeline
produces a report, the number of `AnalysisRecord`s is exactly
`min 5 (number of distinct API tokens of the filtered set)` — hence
never more than 5 and never more than the distinct-API count. -/
theorem c2_report_cardinality (t : RawTable) (f : Option String) (nt : NormTable)
    (recs : List AnalysisRecord)
    (hn : normalize t = .ok nt)
    (hb : buildReport t f = .ok recs)
    (hne : filteredRows nt f ≠ []) :
    recs.length = min 5 (distinctApiCount nt f) := by
  unfold buildReport at hb
  rw [hn] at hb
  dsimp only at hb
  by_cases h1 : nt.hasProductName = false
  · rw [if_pos h1] at hb
    cases hb
  · rw [if_neg h1, if_neg (by simp [List.isEmpty_iff, hne])] at hb
    by_cases h3 : nt.hasQuantity = false
    · rw [if_pos h3] at hb
      cases hb
    · rw [if_neg h3] at hb
      rw [exceptMap_ok_length _ _ _ hb]
      unfold topApis apiKeysSorted distinctApiCount
      rw [List.length_take, length_sortDescBy, length_sortAsc]

/-- A one-row table with every column present, used to instantiate C2. -/
def c2Table : RawTable :=
  { rows := [{ productName := some "PARACETAMOL 500MG TABLET", unit := some "NOS",
               quantity := some 10, fobInr := some 1000, itemRate := some 5,
               fobUsd := some 12 }],
    hasProductName := true, hasUnit := true, hasQuantity := true,
    hasFobInr := true, hasItemRate := true, hasFobUsd := true }

/-- `normalize c2Table` (the USD column sums to 12 ≠ 0, so no fallback). -/
def c2Norm : NormTable :=
  { rows := [{ productName := some "PARACETAMOL 500MG TABLET", unit := some "NOS",
               quantity := 10, fobInr := 1000, itemRate := 5, fobUsd := 12 }],
    hasProductName := true, hasUnit := true, hasQuantity := true,
    hasFobInr := true, hasItemRate := true }

/-- The single analysis record the pipeline produces for `c2Table`. -/
def c2Rec : AnalysisRecord :=
  { api := "PARACETAMOL", category := "PARACETAMOL", exportCount := 1,
    totalShipments := 10, commonStrengths := "500MG", avgQtyExport := 10,
    packagingTypes := "NOS", totalNos := 10, totalKg := 0,
    avgFobPack := 12 / 10, avgPriceUnit := 12 / 10 }

set_option maxRecDepth 8000 in
theorem c2_report_cardinality_witness :
    ([c2Rec] : List AnalysisRecord).length = min 5 (distinctApiCount c2Norm .none) :=
  c2_report_cardinality c2Table .none c2Norm [c2Rec]
    (by with_unfolding_all decide) (by with_unfolding_all decide)
    (by with_unfolding_all decide)

/-! ## Claims C3, C4, C5 (the normalizer) -/

/-- A table with neither `FOB (INR)` nor `FOB (USD)`; used against C3. -/
def c3Table : RawTable :=
  { rows := [{ productName := some "PARACETAMOL TABLET", unit := some "NOS",
               quantity := some 7, fobInr := none, itemRate := none, fobUsd := none }],
    hasProductName := true, hasUnit := true, hasQuantity := true,
    hasFobInr := false, hasItemRate := false, hasFobUsd := false }

/-- C3, counterexample to the claim as stated: the normalization step
does raise — with `FOB (USD)` absent, line 22 reads the absent
`FOB (INR)` column and gets a `KeyError`.  Absent numeric columns are
skipped by the coercion loop, not zero-filled. -/
theorem c3_counterexample :
    normalize c3Table = .error "KeyError: FOB (INR)" := by
  with_unfolding_all decide

/-- C3, corrected: the coercion loop itself never raises — every present
numeric column is coerced cell-wise with unparseable entries replaced by
0, and absent columns are left absent (their flags are preserved, they
are not treated as all-zero).  Normalization as a whole raises exactly
when the `FOB (USD)` fallback fires (column absent or zero sum) while
`FOB (INR)` is absent. -/
theorem c3_normalize_amended (t : RawTable) :
    (∃ nt, normalize t = .ok nt ∧
      nt.hasQuantity = t.hasQuantity ∧ nt.hasItemRate = t.hasItemRate ∧
      nt.hasFobInr = t.hasFobInr ∧
      nt.rows.map (fun r => r.quantity) = t.rows.map (fun r => coerceCell r.quantity) ∧
      nt.rows.map (fun r => r.itemRate) = t.rows.map (fun r => coerceCell r.itemRate) ∧
      nt.rows.map (fun r => r.fobInr) = t.rows.map (fun r => coerceCell r.fobInr)) ∨
    (t.hasFobInr = false ∧ (t.hasFobUsd = false ∨ usdColSum t = 0) ∧
      normalize t = .error "KeyError: FOB (INR)") := by
  unfold normalize
  by_cases hc : t.hasFobUsd = false ∨ usdColSum t = 0
  · rw [if_pos hc]
    by_cases hi : t.hasFobInr = true
    · rw [if_pos hi]
      left
      refine ⟨_, rfl, rfl, rfl, rfl, ?_, ?_, ?_⟩ <;> (rw [List.map_map, List.map_map]; rfl)
    · rw [if_neg hi]
      exact Or.inr ⟨by simpa using hi, hc, rfl⟩
  · rw [if_neg hc]
    left
    refine ⟨_, rfl, rfl, rfl, rfl, ?_, ?_, ?_⟩ <;> (rw [List.map_map]; rfl)

theorem c3_normalize_amended_witness :
    (∃ nt, normalize c3Table = .ok nt ∧
      nt.hasQuantity = c3Table.hasQuantity ∧ nt.hasItemRate = c3Table.hasItemRate ∧
      nt.hasFobInr = c3Table.hasFobInr ∧
      nt.rows.map (fun r => r.quantity) =
        c3Table.rows.map (fun r => coerceCell r.quantity) ∧
      nt.rows.map (fun r => r.itemRate) =
        c3Table.rows.map (fun r => coerceCell r.itemRate) ∧
      nt.rows.map (fun r => r.fobInr) =
        c3Table.rows.map (fun r => coerceCell r.fobInr)) ∨
    (c3Table.hasFobInr = false ∧
      (c3Table.hasFobUsd = false ∨ usdColSum c3Table = 0) ∧
      normalize c3Table = .error "KeyError: FOB (INR)") :=
  c3_normalize_amended c3Table

/-- A table with a negative `Quantity` entry; used against C4. -/
def c4Table : RawTable :=
  { rows := [{ productName := some "PARACETAMOL TABLET", unit := some "NOS",
               quantity := some (-5), fobInr := some 100, itemRate := some 1,
               fobUsd := some 3 }],
    hasProductName := true, hasUnit := true, hasQuantity := true,
    hasFobInr := true, hasItemRate := true, hasFobUsd := true }

/-- `normalize c4Table` (USD sum 3 ≠ 0, no fallback). -/
def c4Norm : NormTable :=
  { rows := [{ productName := some "PARACETAMOL TABLET", unit := some "NOS",
               quantity := -5, fobInr := 100, itemRate := 1, fobUsd := 3 }],
    hasProductName := true, hasUnit := true, hasQuantity := true,
    hasFobInr := true, hasItemRate := true }

/-- C4, counterexample to the claim as stated: a parseable negative
`Quantity` cell survives normalization as a negative value — coercion
replaces only unparseable entries, it does not clamp. -/
theorem c4_counterexample :
    normalize c4Table = .ok c4Norm ∧
    c4Norm.rows.map (fun r => r.quantity) = [-5] ∧
    ¬ (0 : ℚ) ≤ -5 :=
  ⟨by with_unfolding_all decide, by with_unfolding_all decide,
   by with_unfolding_all decide⟩

/-- C4, corrected: after successful normalization every numeric field is
a (total) rational — but non-negativity is only preserved, not enforced:
if every raw cell coerces to a non-negative value, all four normalized
columns are non-negative (the USD fallback `FOB_INR * 0.012` included). -/
theorem c4_nonneg_amended (t : RawTable) (nt : NormTable)
    (hok : normalize t = .ok nt)
    (hnn : ∀ r ∈ t.rows, 0 ≤ coerceCell r.quantity ∧ 0 ≤ coerceCell r.fobInr ∧
      0 ≤ coerceCell r.itemRate ∧ 0 ≤ coerceCell r.fobUsd) :
    ∀ nr ∈ nt.rows, 0 ≤ nr.quantity ∧ 0 ≤ nr.fobInr ∧
      0 ≤ nr.itemRate ∧ 0 ≤ nr.fobUsd := by
  unfold normalize at hok
  by_cases hc : t.hasFobUsd = false ∨ usdColSum t = 0
  · rw [if_pos hc] at hok
    by_cases hi : t.hasFobInr = true
    · rw [if_pos hi] at hok
      cases hok
      intro nr hnr
      rw [List.map_map] at hnr
      obtain ⟨r, hr, rfl⟩ := List.mem_map.mp hnr
      obtain ⟨h1, h2, h3, h4⟩ := hnn r hr
      exact ⟨h1, h2, h3, mul_nonneg h2 (by norm_num [FIXED_RATE])⟩
    · rw [if_neg hi] at hok
      cases hok
  · rw [if_neg hc] at hok
    cases hok
    intro nr hnr
    obtain ⟨r, hr, rfl⟩ := List.mem_map.mp hnr
    obtain ⟨h1, h2, h3, h4⟩ := hnn r hr
    exact ⟨h1, h2, h3, h4⟩

/-- A table with non-negative cells and no `FOB (USD)` column, used to
instantiate C4 (the fallback branch). -/
def c4wTable : RawTable :=
  { rows := [{ productName := some "CETIRIZINE SYRUP", unit := some "NOS",
               quantity := some 2, fobInr := some 1000, itemRate := none,
               fobUsd := none }],
    hasProductName := true, hasUnit := true, hasQuantity := true,
    hasFobInr := true, hasItemRate := false, hasFobUsd := false }

/-- `normalize c4wTable`: the fallback computes `FOB_USD = 1000 * 0.012`. -/
def c4wNorm : NormTable :=
  { rows := [{ productName := some "CETIRIZINE SYRUP", unit := some "NOS",
               quantity := 2, fobInr := 1000, itemRate := 0, fobUsd := 12 }],
    hasProductName := true, hasUnit := true, hasQuantity := true,
    hasFobInr := true, hasItemRate := false }

def c4wRow : NormRow :=
  { productName := some "CETIRIZINE SYRUP", unit := some "NOS",
    quantity := 2, fobInr := 1000, itemRate := 0, fobUsd := 12 }

theorem c4_nonneg_amended_witness :
    0 ≤ c4wRow.quantity ∧ 0 ≤ c4wRow.fobInr ∧
      0 ≤ c4wRow.itemRate ∧ 0 ≤ c4wRow.fobUsd :=
  c4_nonneg_amended c4wTable c4wNorm
    (by with_unfolding_all decide) (by with_unfolding_all decide)
    c4wRow (by with_unfolding_all decide)

/-- C5, confirmed: whenever the fallback condition of line 21 holds —
the `FOB (USD)` column is absent, or its coerced sum is exactly 0 —
and normalization succeeds, every row gets
`FOB_USD = coerced FOB_INR * 0.012`. -/
theorem c5_usd_fallback (t : RawTable) (nt : NormTable)
    (hok : normalize t = .ok nt)
    (hcond : t.hasFobUsd = false ∨ usdColSum t = 0) :
    nt.rows.map (fun r => r.fobUsd) =
      t.rows.map (fun r => coerceCell r.fobInr * FIXED_RATE) := by
  unfold normalize at hok
  rw [if_pos hcond] at hok
  by_cases hi : t.hasFobInr = true
  · rw [if_pos hi] at hok
    cases hok
    rw [List.map_map, List.map_map]
    rfl
  · rw [if_neg hi] at hok
    cases hok

/-- A one-row table with `FOB (INR) = 1000` and no `FOB (USD)` column,
the worked example of C5. -/
def c5Table : RawTable :=
  { rows := [{ productName := some "IBUPROFEN TABLET", unit := some "NOS",
               quantity := some 4, fobInr := some 1000, itemRate := none,
               fobUsd := none }],
    hasProductName := true, hasUnit := true, hasQuantity := true,
    hasFobInr := true, hasItemRate := false, hasFobUsd := false }

/-- `normalize c5Table`. -/
def c5Norm : NormTable :=
  { rows := [{ productName := some "IBUPROFEN TABLET", unit := some "NOS",
               quantity := 4, fobInr := 1000, itemRate := 0, fobUsd := 12 }],
    hasProductName := true, hasUnit := true, hasQuantity := true,
    hasFobInr := true, hasItemRate := false }

theorem c5_usd_fallback_witness :
    c5Norm.rows.map (fun r => r.fobUsd) =
        c5Table.rows.map (fun r => coerceCell r.fobInr * FIXED_RATE) ∧
      c5Norm.rows.map (fun r => r.fobUsd) = [12] :=
  ⟨c5_usd_fallback c5Table c5Norm (by with_unfolding_all decide) (Or.inl rfl),
   by with_unfolding_all decide⟩

/-! ## Claims C6 and C7 (per-group report fields) -/

theorem exceptMap_ok_mem (g : String → Except String AnalysisRecord)
    (l : List String) (ys : List AnalysisRecord) (rec : AnalysisRecord)
    (h : exceptMap g l = .ok ys) (hm : rec ∈ ys) :
    ∃ a ∈ l, g a = .ok rec := by
  induction l generalizing ys with
  | nil =>
    unfold exceptMap at h
    cases h
    exact absurd hm (List.not_mem_nil rec)
  | cons a as ih =>
    unfold exceptMap at h
    cases hg : g a with
    | error e => rw [hg] at h; cases h
    | ok rec0 =>
      rw [hg] at h
      cases hrest : exceptMap g as with
      | error e => rw [hrest] at h; cases h
      | ok recs0 =>
        rw [hrest] at h
        cases h
        rcases List.mem_cons.mp hm with h1 | h1
        · exact ⟨a, List.mem_cons_self a as, h1 ▸ hg⟩
        · obtain ⟨b, hb, hgb⟩ := ih recs0 hrest h1
          exact ⟨b, List.mem_cons_of_mem a hb, hgb⟩

/-- The fields of a successfully built record, in terms of its group. -/
theorem mkRecord_fields (hasUnit : Bool) (a : String) (rows : List NormRow)
    (rec : AnalysisRecord) (h : mkRecord hasUnit a rows = .ok rec) :
    rec.api = a ∧
    rec.avgFobPack =
      ((rows.map (fun r => r.fobUsd)).sum) / max ((rows.map (fun r => r.quantity)).sum) 1 ∧
    rec.avgPriceUnit =
      ((rows.map (fun r => r.fobUsd)).sum) / max ((rows.map (fun r => r.quantity)).sum) 1 ∧
    modeHead (firstWordsOf rows) = some rec.category := by
  unfold mkRecord at h
  by_cases hu : hasUnit = false
  · rw [if_pos hu] at h
    cases h
  · rw [if_neg hu] at h
    cases hmode : modeHead (firstWordsOf rows) with
    | none =>
      rw [hmode] at h
      cases h
    | some m =>
      rw [hmode] at h
      dsimp only at h
      cases h
      exact ⟨rfl, rfl, rfl, rfl⟩

/-- Common skeleton for C6/C7: a record of a built report comes from
`mkRecord` on its own group, with the `Unit` column present. -/
theorem record_from_report (t : RawTable) (f : Option String) (nt : NormTable)
    (recs : List AnalysisRecord) (rec : AnalysisRecord)
    (hn : normalize t = .ok nt) (hb : buildReport t f = .ok recs) (hm : rec ∈ recs) :
    ∃ a ∈ topApis nt f, mkRecord nt.hasUnit a (groupRows nt f a) = .ok rec := by
  unfold buildReport at hb
  rw [hn] at hb
  dsimp only at hb
  by_cases h1 : nt.hasProductName = false
  · rw [if_pos h1] at hb
    cases hb
  · rw [if_neg h1] at hb
    by_cases h2 : (filteredRows nt f).isEmpty = true
    · rw [if_pos h2] at hb
      cases hb
      exact absurd hm (List.not_mem_nil rec)
    · rw [if_neg h2] at hb
      by_cases h3 : nt.hasQuantity = false
      · rw [if_pos h3] at hb
        cases hb
      · rw [if_neg h3] at hb
        exact exceptMap_ok_mem _ _ _ _ hb hm

/-- C6, corrected: both price fields of every record equal
`sum(FOB_USD) / max(sum(Quantity), 1)` over the record's group, and the
denominator is never 0 — but when the group's total quantity is 0 the
fields equal the group's total `FOB_USD` (the denominator becomes 1),
which is 0 only when that total is itself 0. -/
theorem c6_avg_price_amended (t : RawTable) (f : Option String) (nt : NormTable)
    (recs : List AnalysisRecord) (rec : AnalysisRecord)
    (hn : normalize t = .ok nt) (hb : buildReport t f = .ok recs) (hm : rec ∈ recs) :
    rec.avgFobPack = groupFobSum nt f rec.api / max (groupQtySum nt f rec.api) 1 ∧
    rec.avgPriceUnit = groupFobSum nt f rec.api / max (groupQtySum nt f rec.api) 1 ∧
    max (groupQtySum nt f rec.api) 1 ≠ 0 ∧
    (groupQtySum nt f rec.api = 0 → rec.avgFobPack = groupFobSum nt f rec.api) := by
  obtain ⟨a, _, hrec⟩ := record_from_report t f nt recs rec hn hb hm
  obtain ⟨hapi, hpack, hprice, _⟩ := mkRecord_fields _ _ _ _ hrec
  subst hapi
  have hden : max (groupQtySum nt f rec.api) 1 ≠ 0 :=
    ne_of_gt (lt_of_lt_of_le zero_lt_one (le_max_right _ 1))
  refine ⟨hpack, hprice, hden, ?_⟩
  intro h0
  rw [hpack]
  have h0' : ((groupRows nt f rec.api).map (fun r => r.quantity)).sum = 0 := h0
  rw [h0', max_eq_right zero_le_one, div_one]
  rfl

/-- A one-row table whose group has total quantity 0 but total
`FOB (USD)` 12; used against C6. -/
def c6Table : RawTable :=
  { rows := [{ productName := some "PARACETAMOL TABLET", unit := some "NOS",
               quantity := some 0, fobInr := some 0, itemRate := some 0,
               fobUsd := some 12 }],
    hasProductName := true, hasUnit := true, hasQuantity := true,
    hasFobInr := true, hasItemRate := true, hasFobUsd := true }

/-- `normalize c6Table` (USD sum 12 ≠ 0, no fallback). -/
def c6Norm : NormTable :=
  { rows := [{ productName := some "PARACETAMOL TABLET", unit := some "NOS",
               quantity := 0, fobInr := 0, itemRate := 0, fobUsd := 12 }],
    hasProductName := true, hasUnit := true, hasQuantity := true,
    hasFobInr := true, hasItemRate := true }

/-- The single record the pipeline produces for `c6Table`. -/
def c6Rec : AnalysisRecord :=
  { api := "PARACETAMOL", category := "PARACETAMOL", exportCount := 1,
    totalShipments := 0, commonStrengths := "Standard", avgQtyExport := 0,
    packagingTypes := "NOS", totalNos := 0, totalKg := 0,
    avgFobPack := 12, avgPriceUnit := 12 }

/-- C6, counterexample to the claim as stated: for this group the total
quantity is 0 yet both price fields are 12, not 0 — `max(·,1)` prevents
the division by zero but does not zero the result. -/
theorem c6_counterexample :
    normalize c6Table = .ok c6Norm ∧
    buildReport c6Table .none = .ok [c6Rec] ∧
    groupQtySum c6Norm .none "PARACETAMOL" = 0 ∧
    c6Rec.avgFobPack ≠ 0 ∧ c6Rec.avgPriceUnit ≠ 0 :=
  ⟨by with_unfolding_all decide, by with_unfolding_all decide,
   by with_unfolding_all decide, by with_unfolding_all decide,
   by with_unfolding_all decide⟩

theorem c6_avg_price_amended_witness :
    c6Rec.avgFobPack = groupFobSum c6Norm .none c6Rec.api /
        max (groupQtySum c6Norm .none c6Rec.api) 1 ∧
      c6Rec.avgPriceUnit = groupFobSum c6Norm .none c6Rec.api /
        max (groupQtySum c6Norm .none c6Rec.api) 1 ∧
      max (groupQtySum c6Norm .none c6Rec.api) 1 ≠ 0 ∧
      (groupQtySum c6Norm .none c6Rec.api = 0 →
        c6Rec.avgFobPack = groupFobSum c6Norm .none c6Rec.api) :=
  c6_avg_price_amended c6Table .none c6Norm [c6Rec] c6Rec
    (by with_unfolding_all decide) (by with_unfolding_all decide)
    (by with_unfolding_all decide)

/-- Head of the ascending insertion sort is the code-point least element. -/
theorem head?_sortAsc (l : List String) : (sortAsc l).head? = lexMin? l := by
  induction l with
  | nil => rfl
  | cons x xs ih =>
    unfold sortAsc
    cases hs : sortAsc xs with
    | nil =>
      rw [hs] at ih
      unfold lexMin?
      rw [← ih]
      rfl
    | cons b bs =>
      rw [hs] at ih
      have ihb : lexMin? xs = some b := ih.symm.trans rfl
      rw [show lexMin? (x :: xs) = some (strMin x b) from by
        unfold lexMin?
        rw [ihb]]
      unfold insertAsc strMin
      by_cases hc : strLe x b = true
      · rw [if_pos hc, if_pos hc]
        rfl
      · rw [if_neg hc, if_neg hc]
        rfl

/-- C7, corrected: the `Category` of every record is the most frequent
first whitespace-delimited word of the group's product names, but the
tie rule is pandas `mode()[0]`: the modes come back sorted, so the tie
winner is the lexicographically smallest mode, not the first-occurring
one. -/
theorem c7_category_amended (t : RawTable) (f : Option String) (nt : NormTable)
    (recs : List AnalysisRecord) (rec : AnalysisRecord)
    (hn : normalize t = .ok nt) (hb : buildReport t f = .ok recs) (hm : rec ∈ recs) :
    lexMin? (modeCandidates (firstWordsOf (groupRows nt f rec.api))) =
      some rec.category := by
  obtain ⟨a, _, hrec⟩ := record_from_report t f nt recs rec hn hb hm
  obtain ⟨hapi, _, _, hmode⟩ := mkRecord_fields _ _ _ _ hrec
  subst hapi
  rw [← head?_sortAsc]
  exact hmode

/-- Two rows sharing the API `PARACETAMOL` whose first words `ZZZ` and
`PARACETAMOL` are tied for most frequent; used against C7. -/
def c7Table : RawTable :=
  { rows := [{ productName := some "ZZZ PARACETAMOL TABLET", unit := some "NOS",
               quantity := some 1, fobInr := some 0, itemRate := some 0,
               fobUsd := some 1 },
             { productName := some "PARACETAMOL TABLET", unit := some "NOS",
               quantity := some 1, fobInr := some 0, itemRate := some 0,
               fobUsd := some 1 }],
    hasProductName := true, hasUnit := true, hasQuantity := true,
    hasFobInr := true, hasItemRate := true, hasFobUsd := true }

/-- `normalize c7Table` (USD sum 2 ≠ 0, no fallback). -/
def c7Norm : NormTable :=
  { rows := [{ productName := some "ZZZ PARACETAMOL TABLET", unit := some "NOS",
               quantity := 1, fobInr := 0, itemRate := 0, fobUsd := 1 },
             { productName := some "PARACETAMOL TABLET", unit := some "NOS",
               quantity := 1, fobInr := 0, itemRate := 0, fobUsd := 1 }],
    hasProductName := true, hasUnit := true, hasQuantity := true,
    hasFobInr := true, hasItemRate := true }

/-- The single record the pipeline produces for `c7Table`. -/
def c7Rec : AnalysisRecord :=
  { api := "PARACETAMOL", category := "PARACETAMOL", exportCount := 2,
    totalShipments := 2, commonStrengths := "Standard", avgQtyExport := 1,
    packagingTypes := "NOS", totalNos := 2, totalKg := 0,
    avgFobPack := 1, avgPriceUnit := 1 }

/-- C7, counterexample to the claim as stated: `ZZZ` occurs first among
the tied first words, but the record's `Category` is `PARACETAMOL`,
the lexicographically smallest mode. -/
theorem c7_counterexample :
    normalize c7Table = .ok c7Norm ∧
    buildReport c7Table .none = .ok [c7Rec] ∧
    c7Rec.category = "PARACETAMOL" ∧
    firstOccurringMode (firstWordsOf (groupRows c7Norm .none "PARACETAMOL")) =
      some "ZZZ" ∧
    ("PARACETAMOL" : String) ≠ "ZZZ" :=
  ⟨by with_unfolding_all decide, by with_unfolding_all decide,
   by with_unfolding_all decide, by with_unfolding_all decide,
   by with_unfolding_all decide⟩

theorem c7_category_amended_witness :
    lexMin? (modeCandidates (firstWordsOf (groupRows c7Norm .none c7Rec.api))) =
      some c7Rec.category :=
  c7_category_amended c7Table .none c7Norm [c7Rec] c7Rec
    (by with_unfolding_all decide) (by with_unfolding_all decide)
    (by with_unfolding_all decide)

/-! ## Claim C8 (missing text columns) -/

theorem topApis_ne_nil (nt : NormTable) (f : Option String)
    (hne : filteredRows nt f ≠ []) : topApis nt f ≠ [] := by
  have hlen : (topApis nt f).length ≠ 0 := by
    unfold topApis apiKeysSorted
    rw [List.length_take, length_sortDescBy, length_sortAsc]
    cases hfr : filteredRows nt f with
    | nil => exact absurd hfr hne
    | cons r rs =>
      unfold firstDedup
      rw [List.map_cons]
      unfold firstDedupAux
      rw [if_neg (List.not_mem_nil _)]
      simp
  intro h
  rw [h] at hlen
  exact hlen rfl

/-- C8, corrected: the pipeline does crash on missing text columns —
a table without `Product Name` raises a `KeyError` at the extraction
step (line 46), and a table without `Unit` raises a `KeyError` in the
analysis loop (line 76) as soon as the filtered set is non-empty (with
`Quantity` present so that line 61 is passed).  No user-facing
configuration message is produced and missing text columns are not
treated as empty strings. -/
theorem c8_missing_text_columns (t : RawTable) (f : Option String) (nt : NormTable)
    (hn : normalize t = .ok nt) :
    (nt.hasProductName = false → buildReport t f = .error "KeyError: Product Name") ∧
    (nt.hasProductName = true → nt.hasUnit = false → nt.hasQuantity = true →
      filteredRows nt f ≠ [] → buildReport t f = .error "KeyError: Unit") := by
  constructor
  · intro hp
    unfold buildReport
    rw [hn]
    dsimp only
    rw [if_pos hp]
  · intro hp hu hq hne
    unfold buildReport
    rw [hn]
    dsimp only
    rw [if_neg (by simp [hp]), if_neg (by simp [List.isEmpty_iff, hne]),
      if_neg (by simp [hq])]
    cases hT : topApis nt f with
    | nil => exact absurd hT (topApis_ne_nil nt f hne)
    | cons a rest =>
      unfold exceptMap
      rw [show mkRecord nt.hasUnit a (groupRows nt f a) = .error "KeyError: Unit" from by
        rw [hu]
        rfl]

/-- A table with no `Product Name` column; used against C8. -/
def c8aTable : RawTable :=
  { rows := [{ productName := none, unit := some "NOS",
               quantity := some 1, fobInr := some 1, itemRate := some 1,
               fobUsd := some 1 }],
    hasProductName := false, hasUnit := true, hasQuantity := true,
    hasFobInr := true, hasItemRate := true, hasFobUsd := true }

/-- A table with no `Unit` column but a non-empty filtered set; used
against C8. -/
def c8bTable : RawTable :=
  { rows := [{ productName := some "PARACETAMOL TABLET", unit := none,
               quantity := some 1, fobInr := some 1, itemRate := some 1,
               fobUsd := some 1 }],
    hasProductName := true, hasUnit := false, hasQuantity := true,
    hasFobInr := true, hasItemRate := true, hasFobUsd := true }

/-- `normalize c8bTable`. -/
def c8bNorm : NormTable :=
  { rows := [{ productName := some "PARACETAMOL TABLET", unit := none,
               quantity := 1, fobInr := 1, itemRate := 1, fobUsd := 1 }],
    hasProductName := true, hasUnit := false, hasQuantity := true,
    hasFobInr := true, hasItemRate := true }

/-- C8, counterexample to the claim as stated: on both tables the
pipeline terminates with an uncaught `KeyError` instead of a handled
configuration message. -/
theorem c8_counterexample :
    buildReport c8aTable .none = .error "KeyError: Product Name" ∧
    buildReport c8bTable .none = .error "KeyError: Unit" :=
  ⟨by with_unfolding_all decide, by with_unfolding_all decide⟩

theorem c8_missing_text_columns_witness :
    buildReport c8bTable .none = .error "KeyError: Unit" :=
  (c8_missing_text_columns c8bTable .none c8bNorm (by with_unfolding_all decide)).2
    rfl rfl rfl (by with_unfolding_all decide)

/-! ## Claim C10 (the sentinel collides with real tokens) -/

/-- A one-row table whose product name's first surviving token is the
literal word INVALID. -/
def c10Table : RawTable :=
  { rows := [{ productName := some "INVALID SYRUP", unit := some "NOS",
               quantity := some 3, fobInr := some 10, itemRate := some 1,
               fobUsd := some 5 }],
    hasProductName := true, hasUnit := true, hasQuantity := true,
    hasFobInr := true, hasItemRate := true, hasFobUsd := true }

/-- C10, confirmed: `extract_api "INVALID SYRUP"` genuinely extracts the
token `INVALID` (length 7, not excluded, not a dosage), which is the
sentinel itself; every row whose API equals the sentinel is dropped from
`valid_df`, so such rows never reach the report — `c10Table` produces an
empty one. -/
theorem c10_sentinel_collision :
    extract_api "INVALID SYRUP" = "INVALID" ∧
    (∀ nt : NormTable,
      (validRows nt).all (fun r => decide (apiOf r.productName ≠ "INVALID")) = true) ∧
    buildReport c10Table .none = .ok [] := by
  refine ⟨by decide, ?_, by with_unfolding_all decide⟩
  intro nt
  rw [List.all_eq_true]
  intro r hr
  unfold validRows at hr
  exact (List.mem_filter.mp hr).2

/-! ## Claim C9 -/

/-- C9, confirmed (in the strong form): `extract_api` is idempotent on
its output — re-extracting from the returned token yields that very
token back (so in particular it yields the token or the sentinel). -/
theorem c9_extract_api_idempotent (name : String) :
    extract_api (extract_api name) = extract_api name ∨
      extract_api (extract_api name) = "INVALID" :=
  Or.inl (extract_api_idem name)

theorem c9_extract_api_idempotent_witness :
    extract_api (extract_api "Amoxicillin-250mg Capsule (India)") =
        extract_api "Amoxicillin-250mg Capsule (India)" ∨
      extract_api (extract_api "Amoxicillin-250mg Capsule (India)") = "INVALID" :=
  c9_extract_api_idempotent "Amoxicillin-250mg Capsule (India)"

end Infuext
